import Mathlib

/-!
Verification of the `db` database-access layer against its specification.

This file gives a shallow embedding of:
  * `internal/sqladapter/exql/hash.go` — the self-memoizing fingerprint cell
    of a SQL fragment (`hash.Hash`, `hash.Reset`);
  * `postgresql/database.go` — the `ConvertValues` value-normalization hook
    and the `Err` error-translation hook;
  * `mssql/collection.go` — `table.Insert`, with its identity-column
    handling, deferred `SET IDENTITY_INSERT ... OFF` restore, and the
    generated-key result-shape policy.

Impure collaborators (the native SQL backend, `sqlbuilder.Map`, the cached
primary-key list of the base collection) are modelled as an explicit
environment of oracle results plus a trace of the commands issued to the
backend, so that theorems can speak about every exit path of the Go code.
-/

namespace Exql

/-- Structural content of a fragment value, as seen by the deep content
hash: an ordered tree of tagged nodes with string atoms at the leaves
(column lists etc. are order-sensitive, hence `List`). -/
inductive Content where
  | atom (s : String)
  | node (tag : String) (children : List Content)

mutual

/-- Modelled from the spec: `cache.Hash` from the internal cache package is
not under `src/`; per the spec the fingerprint's second component is a
"deep-content-hash(fragment)" that "must be structural (order-sensitive
where SQL syntax is order-sensitive, e.g. column lists) and must be stable
across repeated calls for logically-equal content".  It is modelled as a
structural, order-sensitive serialization of the content tree. -/
def cacheHash : Content → String
  | .atom s => "a:" ++ s
  | .node tag children => "n:" ++ tag ++ ":" ++ cacheHashList children

/-- Serialization of an ordered child list (order-sensitive). -/
def cacheHashList : List Content → String
  | [] => ""
  | c :: cs => "[" ++ cacheHash c ++ "]" ++ cacheHashList cs

end

/-- A Go `interface{}` value as the hash cell sees it: its dynamic type name
(`reflect.TypeOf(i).String()`) and its structural content. -/
structure GoIface where
  typeName : String
  content : Content

/-- `reflect.TypeOf(i).String() + ":" + cache.Hash(i)` — the fingerprint
computed by `hash.Hash` on a cache miss (hash.go line 19). -/
def fingerprint (i : GoIface) : String :=
  i.typeName ++ ":" ++ cacheHash i.content

/-- The state of the `hash` struct's `atomic.Value` field `v`: `none` when
nothing was ever stored, `some s` after `Store(s)`. -/
def HashCell : Type := Option String

/-- A freshly constructed `hash` cell (zero-valued `atomic.Value`). -/
def HashCell.fresh : HashCell := none

/-- `hash.Hash` (hash.go lines 14–22): load `v`; if it holds a non-empty
string, return it; otherwise compute the fingerprint of the argument, store
it, and return it.  Returns the string together with the updated cell. -/
def HashCell.Hash (h : HashCell) (i : GoIface) : String × HashCell :=
  match h with
  | some r =>
      if r ≠ "" then (r, some r)
      else (fingerprint i, some (fingerprint i))
  | none => (fingerprint i, some (fingerprint i))

/-- `hash.Reset` (hash.go lines 24–26): store the empty string. -/
def HashCell.Reset (_ : HashCell) : HashCell := some ""

theorem fingerprint_ne_empty (i : GoIface) : fingerprint i ≠ "" := by
  simp [fingerprint, String.ext_iff, String.data_append]

end Exql

namespace Exql

/-- C1: for all fragment values `A`, `B` of the same kind (dynamic type
name) with structurally equal content, a fresh hash cell yields the same
fingerprint string for both, and repeating the call on the same cell yields
the same string again (stability across repeated calls). -/
theorem fingerprint_stable (A B : GoIface)
    (hTy : A.typeName = B.typeName) (hC : A.content = B.content) :
    (HashCell.Hash HashCell.fresh A).1 =
      A.typeName ++ ":" ++ cacheHash A.content ∧
    (HashCell.Hash HashCell.fresh A).1 = (HashCell.Hash HashCell.fresh B).1 ∧
    (HashCell.Hash (HashCell.Hash HashCell.fresh A).2 A).1 =
      (HashCell.Hash HashCell.fresh A).1 := by
  refine ⟨rfl, ?_, ?_⟩
  · simp [HashCell.Hash, HashCell.fresh, fingerprint, hTy, hC]
  · simp only [HashCell.Hash, HashCell.fresh]
    split <;> simp

/-- C1 witness: two structurally equal column fragments of the same kind
fingerprint identically, stably. -/
theorem fingerprint_stable_witness :
    (⟨"*exql.Column", .node "column" [.atom "id"]⟩ : GoIface).typeName =
      (⟨"*exql.Column", .node "column" [.atom "id"]⟩ : GoIface).typeName ∧
    (HashCell.Hash HashCell.fresh ⟨"*exql.Column", .node "column" [.atom "id"]⟩).1 =
      (HashCell.Hash HashCell.fresh ⟨"*exql.Column", .node "column" [.atom "id"]⟩).1 :=
  ⟨rfl,
    (fingerprint_stable ⟨"*exql.Column", .node "column" [.atom "id"]⟩
      ⟨"*exql.Column", .node "column" [.atom "id"]⟩ rfl rfl).2.1⟩

/-- C2: after `Reset`, the next `Hash` call recomputes the fingerprint from
the argument actually passed — its result is exactly a fresh computation on
that argument's current content, never the string cached before the
`Reset`. -/
theorem hash_after_reset (h : HashCell) (i : GoIface) :
    (HashCell.Hash (HashCell.Reset h) i).1 = fingerprint i ∧
    (HashCell.Hash (HashCell.Reset h) i).1 = (HashCell.Hash HashCell.fresh i).1 := by
  constructor <;> simp [HashCell.Hash, HashCell.Reset, HashCell.fresh]

/-- C9: `Hash` always returns a non-empty string, and once it has returned
`s` the cell is populated with `s`: any subsequent `Hash` call — whatever
its argument — returns `s` and leaves the cell unchanged, so only the
explicit `Reset` operation can invalidate the cached value. -/
theorem hash_sticky (h : HashCell) (i j : GoIface) :
    (HashCell.Hash h i).1 ≠ "" ∧
    HashCell.Hash (HashCell.Hash h i).2 j =
      ((HashCell.Hash h i).1, (HashCell.Hash h i).2) := by
  have hfp := fingerprint_ne_empty i
  match h with
  | none => simp [HashCell.Hash, hfp]
  | some r =>
      by_cases hr : r = ""
      · subst hr; simp [HashCell.Hash, hfp]
      · simp [HashCell.Hash, hr, hfp]

end Exql

namespace Postgresql

/-- A value handed to the PostgreSQL `database.ConvertValues` hook
(`values []interface{}`), classified by the dynamic-type case arms of the
`switch` in `postgresql/database.go` lines 156–199.  Element payloads of
`float64` slices are modelled by an opaque carrier (`List Int`): the
conversion never inspects elements, it only re-tags the container. -/
inductive PgVal where
  /-- `*string, *bool, *int, …, sql.Scanner, *sql.Scanner, *time.Time` —
  "Handled by pq." -/
  | scannerPtr (tag : String)
  /-- `string, bool, int, …, driver.Valuer, *driver.Valuer, time.Time` —
  "Handled by pq." -/
  | valuerVal (tag : String)
  /-- `StringArray, Int64Array, BoolArray, GenericArray, Float64Array,
  JSONBMap, JSONB` — "Already with scanner/valuer." -/
  | pgWrapperVal (tag : String)
  /-- `*StringArray, *Int64Array, *BoolArray, *GenericArray, *Float64Array,
  *JSONBMap, *JSONB` — "Already with scanner/valuer." -/
  | pgWrapperPtr (tag : String)
  /-- `*[]int64` -/
  | ptrInt64Slice (xs : List Int)
  /-- `*[]string` -/
  | ptrStringSlice (xs : List String)
  /-- `*[]float64` -/
  | ptrFloat64Slice (xs : List Int)
  /-- `*[]bool` -/
  | ptrBoolSlice (xs : List Bool)
  /-- `*map[string]interface{}` (entry payloads opaque) -/
  | ptrStringMap (m : List (String × String))
  /-- `[]int64` -/
  | int64Slice (xs : List Int)
  /-- `[]string` -/
  | stringSlice (xs : List String)
  /-- `[]float64` -/
  | float64Slice (xs : List Int)
  /-- `[]bool` -/
  | boolSlice (xs : List Bool)
  /-- `map[string]interface{}` -/
  | stringMap (m : List (String × String))
  /-- `sqlbuilder.ValueWrapper` -/
  | valueWrapper (tag : String)
  /-- any other dynamic type (the `default` arm) -/
  | unknown (tag : String)
  /-- a `*Int64Array` produced by `(*Int64Array)(…)` -/
  | int64ArrayPtr (xs : List Int)
  /-- a `*StringArray` produced by `(*StringArray)(…)` -/
  | stringArrayPtr (xs : List String)
  /-- a `*Float64Array` produced by `(*Float64Array)(…)` -/
  | float64ArrayPtr (xs : List Int)
  /-- a `*BoolArray` produced by `(*BoolArray)(…)` -/
  | boolArrayPtr (xs : List Bool)
  /-- a `*JSONBMap` produced by `(*JSONBMap)(…)` -/
  | jsonbMapPtr (m : List (String × String))
  /-- the opaque result of `v.WrapValue(v)` on a `ValueWrapper` -/
  | wrapValueResult (orig : PgVal)
  /-- the opaque result of `autoWrap(reflect.ValueOf(v), v)` -/
  | autoWrapResult (orig : PgVal)
deriving DecidableEq, Repr

/-- One iteration of the `switch` in `database.ConvertValues`
(postgresql/database.go lines 158–195): what `values[i]` holds after the
assignment for that element. -/
def convertValue : PgVal → PgVal
  | .scannerPtr tag => .scannerPtr tag
  | .valuerVal tag => .valuerVal tag
  | .pgWrapperVal tag => .pgWrapperVal tag
  | .pgWrapperPtr tag => .pgWrapperPtr tag
  | .int64ArrayPtr xs => .int64ArrayPtr xs
  | .stringArrayPtr xs => .stringArrayPtr xs
  | .float64ArrayPtr xs => .float64ArrayPtr xs
  | .boolArrayPtr xs => .boolArrayPtr xs
  | .jsonbMapPtr m => .jsonbMapPtr m
  | .ptrInt64Slice xs => .int64ArrayPtr xs
  | .ptrStringSlice xs => .stringArrayPtr xs
  | .ptrFloat64Slice xs => .float64ArrayPtr xs
  | .ptrBoolSlice xs => .boolArrayPtr xs
  | .ptrStringMap m => .jsonbMapPtr m
  | .int64Slice xs => .int64ArrayPtr xs
  | .stringSlice xs => .stringArrayPtr xs
  | .float64Slice xs => .float64ArrayPtr xs
  | .boolSlice xs => .boolArrayPtr xs
  | .stringMap m => .jsonbMapPtr m
  | .valueWrapper tag => .wrapValueResult (.valueWrapper tag)
  | v => .autoWrapResult v

/-- `database.ConvertValues` (postgresql/database.go lines 156–199): the
slice it returns.  The Go loop writes `values[i] = …` for every index and
then returns `values` itself. -/
def ConvertValues (values : List PgVal) : List PgVal :=
  values.map convertValue

/-- The contents of the CALLER's slice after `ConvertValues(values)`
returns: the Go function loops `for i := range values { values[i] = … }`
over the caller's slice, so the caller's backing array holds exactly the
returned elements — the argument aliases the result. -/
def convertValuesPost (values : List PgVal) : List PgVal :=
  ConvertValues values

/-- `true` exactly on the values the `switch` leaves unchanged: values
already in a pq-handled or pq-wrapper wire form. -/
def driverHandled : PgVal → Bool
  | .scannerPtr _ => true
  | .valuerVal _ => true
  | .pgWrapperVal _ => true
  | .pgWrapperPtr _ => true
  | .int64ArrayPtr _ => true
  | .stringArrayPtr _ => true
  | .float64ArrayPtr _ => true
  | .boolArrayPtr _ => true
  | .jsonbMapPtr _ => true
  | _ => false

/-- C5 counterexample: `ConvertValues` is NOT side-effect-free — on the
one-element input `[]interface{}{[]int64{1}}` the caller's slice is
modified in place (its element is rewrapped as a `*Int64Array`), refuting
"calling ConvertValues leaves the caller's input unmodified". -/
theorem convertValues_mutates :
    convertValuesPost [PgVal.int64Slice [1]] ≠ [PgVal.int64Slice [1]] := by
  decide

/-- C5 (amended): `ConvertValues` is deterministic but converts in place:
the caller's slice after the call holds exactly the returned converted
elements, and an input slice whose elements are all already in a
driver-handled wire form is left unmodified. -/
theorem convertValues_frame (values : List PgVal)
    (h : ∀ v ∈ values, driverHandled v = true) :
    convertValuesPost values = values ∧
    convertValuesPost values = ConvertValues values := by
  refine ⟨?_, rfl⟩
  unfold convertValuesPost ConvertValues
  induction values with
  | nil => rfl
  | cons v vs ih =>
      have hv := h v (List.mem_cons_self v vs)
      have hvs := ih (fun w hw => h w (List.mem_cons_of_mem v hw))
      have hfix : convertValue v = v := by
        cases v <;> first
          | rfl
          | exact absurd hv (by simp [driverHandled])
      simp [hfix, hvs]

/-- C5 witness: a slice of already-wrapped values is left unchanged. -/
theorem convertValues_frame_witness :
    convertValuesPost [PgVal.scannerPtr "*time.Time", PgVal.pgWrapperVal "JSONB"] =
      [PgVal.scannerPtr "*time.Time", PgVal.pgWrapperVal "JSONB"] :=
  (convertValues_frame [PgVal.scannerPtr "*time.Time", PgVal.pgWrapperVal "JSONB"]
    (by decide)).1

end Postgresql

namespace Mssql

/-- Opaque model of a non-nil Go `interface{}` value carried in an item's
column or returned as a generated key. -/
abbrev Val := String

/-- Errors returned by collaborators (message text, opaque). -/
abbrev Err := String

/-- The insert statement built by
`d.InsertInto(t.Name()).Columns(columnNames...).Values(columnValues...)`,
optionally extended by `.Returning(pKey...)`. -/
structure InsertStmt where
  into : String
  columns : List String
  values : List (Option Val)
  returning : List String
deriving DecidableEq, Repr

/-- One command issued to the backend during `table.Insert`, in order. -/
inductive Cmd where
  /-- `t.d.QueryRow(sql, t.Name())` -/
  | queryRow (sql : String) (arg : String)
  /-- `t.d.Exec(sql)` -/
  | exec (sql : String)
  /-- `q.Exec()` — executing the insert statement without reading rows -/
  | runInsert (stmt : InsertStmt)
  /-- `q.Iterator().One(&keyMap)` — executing the insert statement and
  reading the RETURNING row -/
  | queryOne (stmt : InsertStmt)
deriving DecidableEq, Repr

/-- Oracle results of the impure collaborators of `table.Insert`, fixed up
front: what each call would return if reached. -/
structure Env where
  /-- `sqlbuilder.Map(item, nil)`: the item's column names and values (a
  value is `none` when the Go field holds untyped `nil`), or an error. -/
  mapResult : Except Err (List String × List (Option Val))
  /-- `t.BaseCollection.PrimaryKeys()` (cached by the base collection). -/
  pKey : List String
  /-- error of `t.d.QueryRow(...)` on the `sys.identity_columns` query -/
  queryRowErr : Option Err
  /-- `row.Scan(&identityColumns)`: the scanned count, or an error -/
  scanResult : Except Err Int
  /-- error of `t.d.Exec("SET IDENTITY_INSERT <table> ON")` -/
  execOnErr : Option Err
  /-- error of `q.Exec()` on the no-primary-key path -/
  insertExecErr : Option Err
  /-- `q.Iterator().One(&keyMap)`: the scanned `keyMap` (`db.Cond`, one
  entry per returned column), or an error -/
  iterOneResult : Except Err (List (String × Val))

/-- The Go `interface{}` result of a successful `table.Insert` with
primary keys. -/
inductive RetVal where
  /-- `keyMap[pKey[0]]` — the single key value, unwrapped -/
  | val (v : Val)
  /-- `keyMap` — the compound-key map -/
  | condMap (m : List (String × Val))
deriving DecidableEq, Repr

/-- Everything observable about one `table.Insert` call: the two Go return
values, the table's `hasIdentityColumn` cache afterwards, whether control
entered the `if hasKeys { … }` identity-column handling block, and the
trace of backend commands. -/
structure InsertOut where
  ret : Option RetVal
  err : Option Err
  cache : Option Bool
  enteredIdentityHandling : Bool
  trace : List Cmd

/-- The SQL text of `t.d.QueryRow` in the identity-column check
(mssql/collection.go line 89). -/
def identitySQL : String :=
  "SELECT COUNT(1) FROM sys.identity_columns WHERE OBJECT_NAME(object_id) = ?"

/-- `"SET IDENTITY_INSERT " + t.Name() + " ON"` (line 107). -/
def identityOnSQL (name : String) : String :=
  "SET IDENTITY_INSERT " ++ name ++ " ON"

/-- `"SET IDENTITY_INSERT " + t.Name() + " OFF"` (line 111). -/
def identityOffSQL (name : String) : String :=
  "SET IDENTITY_INSERT " ++ name ++ " OFF"

/-- The nested loop of mssql/collection.go lines 72–82: `hasKeys` is set
exactly when some column of the item is named in `pKey` and carries a
non-nil value (`sqlbuilder.Map` returns names and values of equal length,
modelled by zipping). -/
def hasKeysLoop (columnNames : List String) (columnValues : List (Option Val))
    (pKey : List String) : Bool :=
  (columnNames.zip columnValues).any fun p =>
    (pKey.any fun k => k == p.1) && p.2.isSome

/-- Lines 115–140: build the insert statement; without primary keys run it
plainly and return `(nil, nil)` on success; with primary keys add
`RETURNING`, read the key row into `keyMap`, and shape the result by
`len(keyMap)`.  Returns `(ret, err, trace)`. -/
def insertTail (env : Env) (name : String) (columnNames : List String)
    (columnValues : List (Option Val)) :
    Option RetVal × Option Err × List Cmd :=
  let q : InsertStmt := ⟨name, columnNames, columnValues, []⟩
  if env.pKey.length < 1 then
    match env.insertExecErr with
    | some e => (none, some e, [Cmd.runInsert q])
    | none => (none, none, [Cmd.runInsert q])
  else
    let q2 : InsertStmt := { q with returning := env.pKey }
    match env.iterOneResult with
    | .error e => (none, some e, [Cmd.queryOne q2])
    | .ok keyMap =>
      if keyMap.length = 1 then
        -- `return keyMap[pKey[0]], nil` (pKey is non-empty on this path,
        -- so `headD` is exactly `pKey[0]`; a missing map key is Go `nil`)
        ((keyMap.lookup (env.pKey.headD "")).map RetVal.val, none, [Cmd.queryOne q2])
      else
        (some (RetVal.condMap keyMap), none, [Cmd.queryOne q2])

/-- Lines 106–113 followed by the rest of `Insert`: if the table has an
identity column, `SET IDENTITY_INSERT … ON` is executed and, when it
succeeds, `defer t.d.Exec("SET IDENTITY_INSERT … OFF")` is registered —
the deferred restore therefore runs at function exit on EVERY path after
that point, which the model reflects by appending it to whatever trace the
tail produces.  Returns `(ret, err, trace)`. -/
def insertAfterIdentity (env : Env) (name : String) (columnNames : List String)
    (columnValues : List (Option Val)) (hasIdentityColumn : Bool) :
    Option RetVal × Option Err × List Cmd :=
  if hasIdentityColumn then
    match env.execOnErr with
    | some e => (none, some e, [Cmd.exec (identityOnSQL name)])
    | none =>
      let out := insertTail env name columnNames columnValues
      (out.1, out.2.1,
        Cmd.exec (identityOnSQL name) :: out.2.2 ++ [Cmd.exec (identityOffSQL name)])
  else
    insertTail env name columnNames columnValues

/-- `table.Insert` (mssql/collection.go lines 64–141), over the oracle
environment `env`, the table name, and the table's current
`hasIdentityColumn` cache pointer (`none` = nil). -/
def Insert (env : Env) (name : String) (cache : Option Bool) : InsertOut :=
  match env.mapResult with
  | .error e => ⟨none, some e, cache, false, []⟩
  | .ok (columnNames, columnValues) =>
    if hasKeysLoop columnNames columnValues env.pKey then
      match cache with
      | none =>
        match env.queryRowErr with
        | some e => ⟨none, some e, cache, true, [Cmd.queryRow identitySQL name]⟩
        | none =>
          match env.scanResult with
          | .error e => ⟨none, some e, cache, true, [Cmd.queryRow identitySQL name]⟩
          | .ok identityColumns =>
            let hasIdentityColumn := decide (identityColumns > 0)
            let out := insertAfterIdentity env name columnNames columnValues
              hasIdentityColumn
            ⟨out.1, out.2.1, some hasIdentityColumn, true,
              Cmd.queryRow identitySQL name :: out.2.2⟩
      | some b =>
        let out := insertAfterIdentity env name columnNames columnValues b
        ⟨out.1, out.2.1, cache, true, out.2.2⟩
    else
      let out := insertTail env name columnNames columnValues
      ⟨out.1, out.2.1, cache, false, out.2.2⟩

end Mssql

namespace Mssql

theorem insertTail_disj (env : Env) (name : String) (cn : List String)
    (cv : List (Option Val)) :
    (insertTail env name cn cv).1 = none ∨ (insertTail env name cn cv).2.1 = none := by
  unfold insertTail
  split
  · cases env.insertExecErr <;> simp
  · cases env.iterOneResult with
    | error e => simp
    | ok keyMap => by_cases h : keyMap.length = 1 <;> simp [h]

theorem insertTail_no_exec (env : Env) (name : String) (cn : List String)
    (cv : List (Option Val)) (s : String) :
    Cmd.exec s ∉ (insertTail env name cn cv).2.2 := by
  unfold insertTail
  split
  · cases env.insertExecErr <;> simp
  · cases env.iterOneResult with
    | error e => simp
    | ok keyMap => by_cases h : keyMap.length = 1 <;> simp [h]

theorem insertTail_no_queryRow (env : Env) (name : String) (cn : List String)
    (cv : List (Option Val)) (s a : String) :
    Cmd.queryRow s a ∉ (insertTail env name cn cv).2.2 := by
  unfold insertTail
  split
  · cases env.insertExecErr <;> simp
  · cases env.iterOneResult with
    | error e => simp
    | ok keyMap => by_cases h : keyMap.length = 1 <;> simp [h]

theorem insertAfterIdentity_ret_err (env : Env) (name : String)
    (cn : List String) (cv : List (Option Val)) (b : Bool) :
    ((insertAfterIdentity env name cn cv b).1 = (insertTail env name cn cv).1 ∧
     (insertAfterIdentity env name cn cv b).2.1 = (insertTail env name cn cv).2.1) ∨
    ((insertAfterIdentity env name cn cv b).1 = none ∧
     (insertAfterIdentity env name cn cv b).2.1 = env.execOnErr ∧
     env.execOnErr ≠ none) := by
  unfold insertAfterIdentity
  cases b with
  | false => simp
  | true => cases h : env.execOnErr <;> simp [h]

/-- C8: `Insert` never pairs a generated-key result with an error — on
every path, the returned key value is nil or the returned error is nil. -/
theorem insert_error_excludes_key (env : Env) (name : String) (cache : Option Bool) :
    (Insert env name cache).ret = none ∨ (Insert env name cache).err = none := by
  unfold Insert
  cases hm : env.mapResult with
  | error e => simp
  | ok p =>
    obtain ⟨cn, cv⟩ := p
    by_cases hk : hasKeysLoop cn cv env.pKey <;> simp only [hk]
    · cases cache with
      | none =>
        cases hq : env.queryRowErr with
        | some e => simp
        | none =>
          cases hs : env.scanResult with
          | error e => simp
          | ok n =>
            simp only
            rcases insertAfterIdentity_ret_err env name cn cv (decide (n > 0)) with
              ⟨h1, h2⟩ | ⟨h1, _, _⟩
            · rw [h1, h2]; exact insertTail_disj env name cn cv
            · left; exact h1
      | some b =>
        simp only
        rcases insertAfterIdentity_ret_err env name cn cv b with
          ⟨h1, h2⟩ | ⟨h1, _, _⟩
        · rw [h1, h2]; exact insertTail_disj env name cn cv
        · left; exact h1
    · exact insertTail_disj env name cn cv

end Mssql

namespace Mssql

theorem hasKeysLoop_nil_pkey (cn : List String) (cv : List (Option Val)) :
    hasKeysLoop cn cv [] = false := by
  simp [hasKeysLoop]

/-- C10: with an empty primary-key list, `Insert` executes exactly one
backend command — the insert statement with no `RETURNING` clause — and on
success returns a nil key value and a nil error. -/
theorem insert_empty_pkey (env : Env) (name : String) (cache : Option Bool)
    (cn : List String) (cv : List (Option Val))
    (hpk : env.pKey = []) (hmap : env.mapResult = .ok (cn, cv))
    (hexec : env.insertExecErr = none) :
    (Insert env name cache).ret = none ∧ (Insert env name cache).err = none ∧
    (Insert env name cache).trace = [Cmd.runInsert ⟨name, cn, cv, []⟩] := by
  simp [Insert, insertTail, hmap, hpk, hexec, hasKeysLoop_nil_pkey]

/-- C10 witness: a concrete no-primary-key insert. -/
theorem insert_empty_pkey_witness :
    (Insert ⟨.ok (["a"], [some "1"]), [], none, .ok 0, none, none,
        .ok []⟩ "t" none).ret = none ∧
    (Insert ⟨.ok (["a"], [some "1"]), [], none, .ok 0, none, none,
        .ok []⟩ "t" none).err = none ∧
    (Insert ⟨.ok (["a"], [some "1"]), [], none, .ok 0, none, none,
        .ok []⟩ "t" none).trace = [Cmd.runInsert ⟨"t", ["a"], [some "1"], []⟩] :=
  insert_empty_pkey ⟨.ok (["a"], [some "1"]), [], none, .ok 0, none, none, .ok []⟩
    "t" none ["a"] [some "1"] rfl rfl rfl

theorem Insert_trace_cases (env : Env) (name : String) (cache : Option Bool) :
    (Insert env name cache).trace = [] ∨
    (Insert env name cache).trace = [Cmd.queryRow identitySQL name] ∨
    (∃ cn cv b, (Insert env name cache).trace =
        Cmd.queryRow identitySQL name :: (insertAfterIdentity env name cn cv b).2.2) ∨
    (∃ cn cv b, (Insert env name cache).trace =
        (insertAfterIdentity env name cn cv b).2.2) ∨
    (∃ cn cv, (Insert env name cache).trace = (insertTail env name cn cv).2.2) := by
  unfold Insert
  cases env.mapResult with
  | error e => simp
  | ok p =>
    obtain ⟨cn, cv⟩ := p
    by_cases hk : hasKeysLoop cn cv env.pKey = true
    · simp only [hk, if_true]
      cases cache with
      | none =>
        cases env.queryRowErr with
        | some e => simp
        | none =>
          cases env.scanResult with
          | error e => simp
          | ok n =>
            refine Or.inr (Or.inr (Or.inl ⟨cn, cv, decide (n > 0), ?_⟩))
            simp only []
      | some b =>
        refine Or.inr (Or.inr (Or.inr (Or.inl ⟨cn, cv, b, ?_⟩)))
        simp only []
    · simp only [Bool.not_eq_true] at hk
      simp only [hk, Bool.false_eq_true, if_false]
      exact Or.inr (Or.inr (Or.inr (Or.inr ⟨cn, cv, rfl⟩)))

theorem insertAfterIdentity_restore (env : Env) (name : String)
    (cn : List String) (cv : List (Option Val)) (b : Bool)
    (hOn : env.execOnErr = none)
    (hMem : Cmd.exec (identityOnSQL name) ∈ (insertAfterIdentity env name cn cv b).2.2) :
    Cmd.exec (identityOffSQL name) ∈ (insertAfterIdentity env name cn cv b).2.2 := by
  unfold insertAfterIdentity at *
  cases b with
  | false => exact absurd hMem (insertTail_no_exec env name cn cv _)
  | true =>
    rw [hOn] at hMem ⊢
    simp only [List.mem_cons, List.mem_append] at hMem ⊢
    simp

/-- C3: on every exit path of `Insert` — the failing ones included — if the
`SET IDENTITY_INSERT <table> ON` toggle was issued and succeeded, the
restoring `SET IDENTITY_INSERT <table> OFF` is also issued (the deferred
restore runs unconditionally once the toggle succeeds). -/
theorem insert_identity_restore (env : Env) (name : String) (cache : Option Bool)
    (hOn : env.execOnErr = none)
    (hMem : Cmd.exec (identityOnSQL name) ∈ (Insert env name cache).trace) :
    Cmd.exec (identityOffSQL name) ∈ (Insert env name cache).trace := by
  rcases Insert_trace_cases env name cache with h | h | ⟨cn, cv, b, h⟩ |
    ⟨cn, cv, b, h⟩ | ⟨cn, cv, h⟩
  · rw [h] at hMem; simp at hMem
  · rw [h] at hMem; simp at hMem
  · rw [h] at hMem ⊢
    rcases List.mem_cons.mp hMem with h1 | h1
    · simp at h1
    · exact List.mem_cons_of_mem _ (insertAfterIdentity_restore env name cn cv b hOn h1)
  · rw [h] at hMem ⊢
    exact insertAfterIdentity_restore env name cn cv b hOn hMem
  · rw [h] at hMem
    exact absurd hMem (insertTail_no_exec env name cn cv _)

/-- C3 witness: a concrete run where the toggle succeeds, the insert itself
fails (so `Insert` returns an error), and the restore still appears in the
trace. -/
theorem insert_identity_restore_witness :
    (Insert ⟨.ok (["id"], [some "7"]), ["id"], none, .ok 1, none, none,
        .error "insert failed"⟩ "t" none).err = some "insert failed" ∧
    Cmd.exec (identityOffSQL "t") ∈
      (Insert ⟨.ok (["id"], [some "7"]), ["id"], none, .ok 1, none, none,
        .error "insert failed"⟩ "t" none).trace :=
  ⟨by decide,
    insert_identity_restore
      ⟨.ok (["id"], [some "7"]), ["id"], none, .ok 1, none, none,
        .error "insert failed"⟩ "t" none rfl (by decide)⟩

end Mssql

namespace Mssql

/-- The observable identity-column machinery of `Insert`: the
`sys.identity_columns` probe or either `IDENTITY_INSERT` toggle. -/
def identityMachinery (name : String) (tr : List Cmd) : Prop :=
  Cmd.queryRow identitySQL name ∈ tr ∨ Cmd.exec (identityOnSQL name) ∈ tr ∨
    Cmd.exec (identityOffSQL name) ∈ tr

theorem hasKeysLoop_iff (cn : List String) (cv : List (Option Val))
    (pk : List String) :
    hasKeysLoop cn cv pk = true ↔
      ∃ p ∈ cn.zip cv, p.1 ∈ pk ∧ p.2 ≠ none := by
  simp only [hasKeysLoop, List.any_eq_true, Bool.and_eq_true, beq_iff_eq,
    Option.isSome_iff_ne_none]
  constructor
  · rintro ⟨p, hp, ⟨k, hk, rfl⟩, h2⟩
    exact ⟨p, hp, hk, h2⟩
  · rintro ⟨p, hp, h1, h2⟩
    exact ⟨p, hp, ⟨p.1, h1, rfl⟩, h2⟩

theorem Insert_entered (env : Env) (name : String) (cache : Option Bool)
    (cn : List String) (cv : List (Option Val))
    (hmap : env.mapResult = .ok (cn, cv)) :
    (Insert env name cache).enteredIdentityHandling = hasKeysLoop cn cv env.pKey := by
  unfold Insert
  rw [hmap]
  by_cases hk : hasKeysLoop cn cv env.pKey = true
  · simp only [hk, if_true]
    cases cache with
    | none =>
      cases env.queryRowErr with
      | some e => simp [hk]
      | none =>
        cases env.scanResult with
        | error e => simp [hk]
        | ok n => simp [hk]
    | some b => simp [hk]
  · simp only [Bool.not_eq_true] at hk
    simp [hk]

theorem Insert_trace_noKeys (env : Env) (name : String) (cache : Option Bool)
    (cn : List String) (cv : List (Option Val))
    (hmap : env.mapResult = .ok (cn, cv))
    (hk : hasKeysLoop cn cv env.pKey = false) :
    (Insert env name cache).trace = (insertTail env name cn cv).2.2 := by
  unfold Insert
  rw [hmap]
  simp [hk]

theorem Insert_trace_fresh (env : Env) (name : String)
    (cn : List String) (cv : List (Option Val))
    (hmap : env.mapResult = .ok (cn, cv))
    (hk : hasKeysLoop cn cv env.pKey = true) :
    Cmd.queryRow identitySQL name ∈ (Insert env name none).trace := by
  unfold Insert
  rw [hmap]
  simp only [hk, if_true]
  cases env.queryRowErr with
  | some e => simp
  | none =>
    cases env.scanResult with
    | error e => simp
    | ok n => simp

/-- C6: `Insert` enters the `if hasKeys` identity-column handling block
exactly when some column of the item named in the table's primary-key list
carries a non-nil value; when no such column exists, neither the
`sys.identity_columns` probe nor an `IDENTITY_INSERT` toggle is issued; and
on a fresh collection (`hasIdentityColumn` cache still nil) an explicit-key
insert does issue the `sys.identity_columns` probe. -/
theorem insert_identity_trigger (env : Env) (name : String) (cache : Option Bool)
    (cn : List String) (cv : List (Option Val))
    (hmap : env.mapResult = .ok (cn, cv)) :
    ((Insert env name cache).enteredIdentityHandling = true ↔
      ∃ p ∈ cn.zip cv, p.1 ∈ env.pKey ∧ p.2 ≠ none) ∧
    ((¬ ∃ p ∈ cn.zip cv, p.1 ∈ env.pKey ∧ p.2 ≠ none) →
      ¬ identityMachinery name (Insert env name cache).trace) ∧
    (cache = none → (∃ p ∈ cn.zip cv, p.1 ∈ env.pKey ∧ p.2 ≠ none) →
      Cmd.queryRow identitySQL name ∈ (Insert env name cache).trace) := by
  refine ⟨?_, ?_, ?_⟩
  · rw [Insert_entered env name cache cn cv hmap]
    exact hasKeysLoop_iff cn cv env.pKey
  · intro hnot hmach
    have hk : hasKeysLoop cn cv env.pKey = false := by
      rcases Bool.eq_false_or_eq_true (hasKeysLoop cn cv env.pKey) with h | h
      · exact absurd ((hasKeysLoop_iff cn cv env.pKey).mp h) hnot
      · exact h
    rw [Insert_trace_noKeys env name cache cn cv hmap hk] at hmach
    rcases hmach with h | h | h
    · exact insertTail_no_queryRow env name cn cv _ _ h
    · exact insertTail_no_exec env name cn cv _ h
    · exact insertTail_no_exec env name cn cv _ h
  · intro hc hex
    subst hc
    exact Insert_trace_fresh env name cn cv hmap
      ((hasKeysLoop_iff cn cv env.pKey).mpr hex)

/-- C6 witness: an item carrying a non-nil primary-key value triggers the
`sys.identity_columns` probe on a fresh collection. -/
theorem insert_identity_trigger_witness :
    Cmd.queryRow identitySQL "t" ∈
      (Insert ⟨.ok (["id"], [some "5"]), ["id"], none, .ok 0, none, none,
        .ok [("id", "5")]⟩ "t" none).trace :=
  (insert_identity_trigger
    ⟨.ok (["id"], [some "5"]), ["id"], none, .ok 0, none, none, .ok [("id", "5")]⟩
    "t" none ["id"] [some "5"] rfl).2.2 rfl ⟨("id", some "5"), by decide, by decide, by decide⟩

end Mssql

namespace Mssql

theorem insertTail_shape (env : Env) (name : String) (cn : List String)
    (cv : List (Option Val)) (keyMap : List (String × Val))
    (hio : env.iterOneResult = .ok keyMap)
    (hcols : keyMap.map Prod.fst = env.pKey)
    (hne : env.pKey ≠ []) :
    (insertTail env name cn cv).2.1 = none ∧
    (env.pKey.length = 1 →
      ∃ v, keyMap.lookup (env.pKey.headD "") = some v ∧
        (insertTail env name cn cv).1 = some (RetVal.val v)) ∧
    (env.pKey.length ≠ 1 →
      (insertTail env name cn cv).1 = some (RetVal.condMap keyMap)) := by
  have hlen : keyMap.length = env.pKey.length := by
    rw [← hcols, List.length_map]
  have hlt : ¬ (env.pKey.length < 1) := by
    cases hpk : env.pKey with
    | nil => exact absurd hpk hne
    | cons a l => simp
  unfold insertTail
  rw [if_neg hlt, hio]
  by_cases h1 : keyMap.length = 1
  · have hp1 : env.pKey.length = 1 := by omega
    obtain ⟨p, hp⟩ := List.length_eq_one.mp h1
    obtain ⟨k, v⟩ := p
    have hpk : env.pKey = [k] := by rw [← hcols, hp]; simp
    refine ⟨by simp [h1], fun _ => ⟨v, ?_, ?_⟩, fun h => absurd hp1 h⟩
    · rw [hpk, hp]; simp [List.lookup]
    · rw [hp, hpk]; simp [List.lookup]
  · have hp1 : env.pKey.length ≠ 1 := by omega
    exact ⟨by simp [h1], fun h => absurd h hp1, fun _ => by simp [h1]⟩

theorem Insert_ret_err (env : Env) (name : String) (cache : Option Bool)
    (cn : List String) (cv : List (Option Val))
    (hmap : env.mapResult = .ok (cn, cv)) :
    ((Insert env name cache).ret = (insertTail env name cn cv).1 ∧
     (Insert env name cache).err = (insertTail env name cn cv).2.1) ∨
    ((Insert env name cache).ret = none ∧ (Insert env name cache).err ≠ none) := by
  unfold Insert
  rw [hmap]
  by_cases hk : hasKeysLoop cn cv env.pKey = true
  · simp only [hk, if_true]
    cases cache with
    | none =>
      cases env.queryRowErr with
      | some e => right; simp
      | none =>
        cases env.scanResult with
        | error e => right; simp
        | ok n =>
          rcases insertAfterIdentity_ret_err env name cn cv (decide (n > 0)) with
            ⟨h1, h2⟩ | ⟨h1, h2, h3⟩
          · left; exact ⟨h1, h2⟩
          · right
            refine ⟨h1, ?_⟩
            show (insertAfterIdentity env name cn cv (decide (n > 0))).2.1 ≠ none
            rw [h2]; exact h3
    | some b =>
      rcases insertAfterIdentity_ret_err env name cn cv b with
        ⟨h1, h2⟩ | ⟨h1, h2, h3⟩
      · left; exact ⟨h1, h2⟩
      · right
        refine ⟨h1, ?_⟩
        show (insertAfterIdentity env name cn cv b).2.1 ≠ none
        rw [h2]; exact h3
  · simp only [Bool.not_eq_true] at hk
    left
    simp [hk]

/-- C4: on a successful `Insert` into a table with primary keys whose
`RETURNING` row `keyMap` has exactly the primary-key columns: with a single
primary-key column the generated value is returned directly (unwrapped),
with a compound key the whole name-to-value mapping is returned. -/
theorem insert_result_shape (env : Env) (name : String) (cache : Option Bool)
    (keyMap : List (String × Val))
    (hio : env.iterOneResult = .ok keyMap)
    (hcols : keyMap.map Prod.fst = env.pKey)
    (hne : env.pKey ≠ [])
    (hok : (Insert env name cache).err = none) :
    (env.pKey.length = 1 →
      ∃ v, keyMap.lookup (env.pKey.headD "") = some v ∧
        (Insert env name cache).ret = some (RetVal.val v)) ∧
    (env.pKey.length ≠ 1 →
      (Insert env name cache).ret = some (RetVal.condMap keyMap)) := by
  cases hm : env.mapResult with
  | error e =>
    exfalso
    unfold Insert at hok
    rw [hm] at hok
    simp at hok
  | ok p =>
    obtain ⟨cn, cv⟩ := p
    rcases Insert_ret_err env name cache cn cv hm with ⟨h1, _⟩ | ⟨_, h2⟩
    · rw [h1]
      have hs := insertTail_shape env name cn cv keyMap hio hcols hne
      exact ⟨hs.2.1, hs.2.2⟩
    · exact absurd hok h2

/-- C4 witness: a single-key table returns the generated key unwrapped; a
compound-key table returns the full mapping. -/
theorem insert_result_shape_witness :
    (∃ v, ([("id", "42")] : List (String × Val)).lookup ((["id"] : List String).headD "") = some v ∧
      (Insert ⟨.ok (["x"], [some "9"]), ["id"], none, .ok 0, none, none,
        .ok [("id", "42")]⟩ "t" none).ret = some (RetVal.val v)) ∧
    (Insert ⟨.ok (["x"], [some "9"]), ["a", "b"], none, .ok 0, none, none,
      .ok [("a", "1"), ("b", "2")]⟩ "t" none).ret =
        some (RetVal.condMap [("a", "1"), ("b", "2")]) :=
  ⟨(insert_result_shape
      ⟨.ok (["x"], [some "9"]), ["id"], none, .ok 0, none, none, .ok [("id", "42")]⟩
      "t" none [("id", "42")] rfl rfl (by decide) (by decide)).1 rfl,
   (insert_result_shape
      ⟨.ok (["x"], [some "9"]), ["a", "b"], none, .ok 0, none, none,
        .ok [("a", "1"), ("b", "2")]⟩
      "t" none [("a", "1"), ("b", "2")] rfl rfl (by decide) (by decide)).2 (by decide)⟩

end Mssql

namespace Postgresql

/-- `strings.Contains` on character lists: does `pat` occur as a contiguous
substring of the second list? -/
def hasSubstrAux (pat : List Char) : List Char → Bool
  | [] => pat.isEmpty
  | c :: rest => pat.isPrefixOf (c :: rest) || hasSubstrAux pat rest

/-- `strings.Contains(s, pat)`. -/
def strContains (s pat : String) : Bool :=
  hasSubstrAux pat.toList s.toList

/-- An error value as seen by `database.Err`: `errTooManyClients` stands
for the exported sentinel `db.ErrTooManyClients`, `native` for any backend
error carrying its message text. -/
inductive DBError where
  | errTooManyClients
  | native (msg : String)
deriving DecidableEq, Repr

/-- `err.Error()`.  The message of `db.ErrTooManyClients` is modelled from
the spec as a fixed generic resource-exhaustion message (the `db` package
defining it is not under `src/`; its wording is immaterial here). -/
def DBError.message : DBError → String
  | .errTooManyClients => "db: connection limit exceeded"
  | .native msg => msg

/-- `database.Err` (postgresql/database.go lines 214–223): a non-nil error
whose message contains one of the three PostgreSQL connection-exhaustion
phrases is translated to `db.ErrTooManyClients`; anything else is returned
unchanged. -/
def Err (err : Option DBError) : Option DBError :=
  match err with
  | some e =>
      let s := e.message
      if strContains s "too many clients" ||
         strContains s "remaining connection slots are reserved" ||
         strContains s "too many open" then
        some .errTooManyClients
      else some e
  | none => none

/-- C7: `Err` maps every non-nil error whose message contains
"too many clients", "remaining connection slots are reserved" or
"too many open" to `db.ErrTooManyClients`, and returns every other
error — nil included — unchanged. -/
theorem err_translation :
    Err none = none ∧
    (∀ e : DBError,
      (strContains e.message "too many clients" ||
       strContains e.message "remaining connection slots are reserved" ||
       strContains e.message "too many open") = true →
      Err (some e) = some DBError.errTooManyClients) ∧
    (∀ e : DBError,
      (strContains e.message "too many clients" ||
       strContains e.message "remaining connection slots are reserved" ||
       strContains e.message "too many open") = false →
      Err (some e) = some e) := by
  refine ⟨rfl, fun e h => ?_, fun e h => ?_⟩ <;> simp [Err, h]

/-- C7 witness: a connection-exhaustion message is translated, an unrelated
error and nil pass through unchanged. -/
theorem err_translation_witness :
    Err (some (.native "pq: sorry, too many clients already")) =
      some DBError.errTooManyClients ∧
    Err (some (.native "pq: syntax error at or near SELECT")) =
      some (.native "pq: syntax error at or near SELECT") ∧
    Err none = none :=
  ⟨err_translation.2.1 _ (by decide), err_translation.2.2 _ (by decide),
    err_translation.1⟩

end Postgresql
